import Mathlib

/-!
Verification of the dispatch / rate-limiting / response-normalization logic of
the Dermi Hugging Face proxy server.  All definitions below are shallow
embeddings of the JavaScript source (the richest variant of the server):
pure functions become Lean functions, the mutable module-level variables
(`consecutiveFailures`, `CURRENT_MODEL`, ...) become an explicit state record
threaded through the dispatch recursion, network calls are represented by an
oracle giving the outcome of each (model, attempt) pair, and wall-clock
waiting is recorded as data (number of milliseconds) instead of being
performed.
-/

namespace DermiProxy

/-! ## Rate limiter

Embeds `rateLimiter` (per-client window; `requestCounts[ip]` is modelled as an
`Option ClientWindow` for the one client under consideration). -/

def RATE_LIMIT_WINDOW : Nat := 60000

def RATE_LIMIT : Nat := 10

structure ClientWindow where
  count : Nat
  resetTime : Nat
deriving DecidableEq

inductive Decision where
  | allow
  | deny
deriving DecidableEq

/-- One call of the `rateLimiter` middleware for a single client: given the
current time and the client's window (if any), returns the decision and the
updated window. -/
def rateLimiter (now : Nat) (w : Option ClientWindow) : Decision × ClientWindow :=
  match w with
  | none => (.allow, ⟨1, now + RATE_LIMIT_WINDOW⟩)
  | some cw =>
    if now > cw.resetTime then
      (.allow, ⟨1, now + RATE_LIMIT_WINDOW⟩)
    else
      let cw' : ClientWindow := ⟨cw.count + 1, cw.resetTime⟩
      if cw'.count > RATE_LIMIT then (.deny, cw') else (.allow, cw')

/-- A sequence of requests from one client at the given times, threading the
window state; returns the list of decisions and the final window. -/
def runRequests (times : List Nat) (w : Option ClientWindow) :
    List Decision × Option ClientWindow :=
  match times with
  | [] => ([], w)
  | t :: ts =>
    let d := rateLimiter t w
    let r := runRequests ts (some d.2)
    (d.1 :: r.1, r.2)

theorem runRequests_in_window (ts : List Nat) (c R : Nat)
    (h : ∀ t ∈ ts, ¬ t > R) :
    runRequests ts (some ⟨c, R⟩) =
      ((List.range ts.length).map
          (fun j => if c + j + 1 > RATE_LIMIT then Decision.deny else Decision.allow),
        some ⟨c + ts.length, R⟩) := by
  induction ts generalizing c with
  | nil => simp [runRequests]
  | cons t ts ih =>
    have ht : ¬ t > R := h t (by simp)
    have hts : ∀ u ∈ ts, ¬ u > R := fun u hu => h u (by simp [hu])
    have key : rateLimiter t (some ⟨c, R⟩) =
        ((if c + 1 > RATE_LIMIT then Decision.deny else Decision.allow),
          ⟨c + 1, R⟩) := by
      simp only [rateLimiter, if_neg ht]
      by_cases hc : c + 1 > RATE_LIMIT <;> simp [hc]
    simp only [runRequests, key]
    rw [ih (c + 1) hts]
    simp only [Prod.mk.injEq]
    refine ⟨?_, ?_⟩
    · rw [List.length_cons, List.range_succ_eq_map]
      simp only [List.map_cons, List.map_map, List.cons.injEq]
      refine ⟨by norm_num, ?_⟩
      apply List.map_congr_left
      intro a _
      simp only [Function.comp_apply]
      have harith : c + (a + 1) + 1 = c + 1 + a + 1 := by omega
      rw [harith]
    · simp only [List.length_cons]
      congr 2
      omega

/-- C3: the first ten requests of a client inside one 60000 ms window are all
admitted, the eleventh is denied, and the denied request still leaves the
counter incremented (final count 11). -/
theorem rate_limit_first_ten_admitted_eleventh_denied
    (t0 : Nat) (rest : List Nat) (hlen : rest.length = 10)
    (hin : ∀ t ∈ rest, t ≤ t0 + RATE_LIMIT_WINDOW) :
    (runRequests (t0 :: rest) none).1 =
        List.replicate 10 Decision.allow ++ [Decision.deny] ∧
      (runRequests (t0 :: rest) none).2 =
        some ⟨11, t0 + RATE_LIMIT_WINDOW⟩ := by
  have hno : ∀ t ∈ rest, ¬ t > t0 + RATE_LIMIT_WINDOW := by
    intro t ht
    exact Nat.not_lt.mpr (hin t ht)
  have hfirst : rateLimiter t0 none = (.allow, ⟨1, t0 + RATE_LIMIT_WINDOW⟩) := rfl
  simp only [runRequests, hfirst]
  rw [runRequests_in_window rest 1 (t0 + RATE_LIMIT_WINDOW) hno, hlen]
  refine ⟨?_, by norm_num⟩
  show Decision.allow ::
      List.map (fun j => if 1 + j + 1 > RATE_LIMIT then Decision.deny else Decision.allow)
        (List.range 10) =
    List.replicate 10 Decision.allow ++ [Decision.deny]
  decide

/-- Witness for C3: eleven immediate requests at time 0. -/
theorem rate_limit_first_ten_admitted_eleventh_denied_witness :
    (runRequests (0 :: List.replicate 10 0) none).1 =
        List.replicate 10 Decision.allow ++ [Decision.deny] ∧
      (runRequests (0 :: List.replicate 10 0) none).2 =
        some ⟨11, 0 + RATE_LIMIT_WINDOW⟩ :=
  rate_limit_first_ten_admitted_eleventh_denied 0 (List.replicate 10 0)
    (by decide) (by intro t ht; simp at ht; omega)

/-! ## Response normalizer

Embeds `extractModelResponse`.  JavaScript regex replacements are modelled by
explicit functions on `List Char`; each models the exact semantics of the
regex used at that step (global vs first-match, lazy quantifiers, dotall,
multiline anchors, case-insensitivity). -/

/-- `isPrefixL p s`: `p` is a prefix of `s`. -/
def isPrefixL : List Char → List Char → Bool
  | [], _ => true
  | _ :: _, [] => false
  | p :: ps, c :: cs => p == c && isPrefixL ps cs

/-- `containsL pat s`: `s` has `pat` as a contiguous sublist (JS
`String.includes`). -/
def containsL (pat : List Char) : List Char → Bool
  | [] => isPrefixL pat []
  | c :: cs => isPrefixL pat (c :: cs) || containsL pat cs

/-- Index of the first occurrence of `pat` in `s`, if any. -/
def findIdxL (pat : List Char) : List Char → Option Nat
  | [] => if isPrefixL pat [] then some 0 else none
  | c :: cs =>
    if isPrefixL pat (c :: cs) then some 0
    else (findIdxL pat cs).map (fun n => n + 1)

/-- Global removal of `<s>` and `</s>` (regex `<\/?s>` with flag `g`, replaced
by the empty string), scanning left to right. -/
def removeSTags : List Char → List Char
  | '<' :: '/' :: 's' :: '>' :: cs => removeSTags cs
  | '<' :: 's' :: '>' :: cs => removeSTags cs
  | c :: cs => c :: removeSTags cs
  | [] => []

/-- First-match removal of `openPat`, a lazy gap, and `closePat` (regexes such
as `\[INST\].*?\[\/INST\]` with flag `s`: dotall, non-global, replaced by the
empty string). -/
def removeSpanDotall (openPat closePat s : List Char) : List Char :=
  match findIdxL openPat s with
  | none => s
  | some p =>
    let rest := s.drop (p + openPat.length)
    match findIdxL closePat rest with
    | none => s
    | some q => s.take p ++ rest.drop (q + closePat.length)

/-- Position of the closing `|>` for regex `<\|.*?\|>` (no dotall: the lazy
gap may not cross a newline). -/
def findCloseNoNL : List Char → Option Nat
  | '|' :: '>' :: _ => some 0
  | '\n' :: _ => none
  | _ :: cs => (findCloseNoNL cs).map (fun n => n + 1)
  | [] => none

/-- Global removal of `<\|.*?\|>` spans (phi-2 cleanup, second step). -/
def removeAngleSpans : List Char → List Char
  | '<' :: '|' :: cs =>
    match findCloseNoNL cs with
    | some j => removeAngleSpans (cs.drop (j + 2))
    | none => '<' :: removeAngleSpans ('|' :: cs)
  | c :: cs => c :: removeAngleSpans cs
  | [] => []
termination_by s => s.length
decreasing_by
  · simp only [List.length_cons, List.length_drop]
    omega
  · simp only [List.length_cons]
    omega
  · simp only [List.length_cons]
    omega

/-- Removal of the leading `Human: ... \n\nDermi ... :` header (regex
`^Human:.*?\n\nDermi.*?:` with flag `s`, anchored at the start of the
string). -/
def removeHumanDermiHeader (s : List Char) : List Char :=
  if isPrefixL "Human:".data s then
    match findIdxL "\n\nDermi".data (s.drop 6) with
    | none => s
    | some q =>
      let rest := (s.drop 6).drop (q + 7)
      match findIdxL [':'] rest with
      | none => s
      | some r => rest.drop (r + 1)
  else s

/-- Split into lines at `'\n'` (the line structure seen by a multiline `^`
anchor). -/
def splitLines : List Char → List (List Char)
  | [] => [[]]
  | '\n' :: cs => [] :: splitLines cs
  | c :: cs =>
    match splitLines cs with
    | [] => [[c]]
    | l :: ls => (c :: l) :: ls

/-- Joins lines back with `'\n'`; left inverse of `splitLines`. -/
def joinLines : List (List Char) → List Char
  | [] => []
  | [l] => l
  | l :: ls => l ++ '\n' :: joinLines ls

/-- Blanks the content of every line starting with `pfx` (regexes such as
`^Q:.*$` with flags `gm`, replaced by the empty string: the line's content is
removed, its newline kept). -/
def blankLinesStarting (pfx : List Char) (s : List Char) : List Char :=
  joinLines ((splitLines s).map (fun l => if isPrefixL pfx l then [] else l))

def toLowerL (s : List Char) : List Char := s.map Char.toLower

/-- Case-insensitive prefix test. -/
def isPrefixCI (pat s : List Char) : Bool := isPrefixL (toLowerL pat) (toLowerL s)

def dropWhileWS (s : List Char) : List Char := s.dropWhile Char.isWhitespace

/-- Strip a leading role label (regex `^(Assistant|Dermi|A):\s*` with flag
`i`, anchored at the start of the string). -/
def stripRoleLabel (s : List Char) : List Char :=
  if isPrefixCI "Assistant:".data s then dropWhileWS (s.drop 10)
  else if isPrefixCI "Dermi:".data s then dropWhileWS (s.drop 6)
  else if isPrefixCI "A:".data s then dropWhileWS (s.drop 2)
  else s

/-- Case-insensitive removal of the first occurrence of `pat` (JS
`new RegExp(phrase, "i")`; the phrases contain no regex metacharacters). -/
def removeFirstCI (pat s : List Char) : List Char :=
  match findIdxL (toLowerL pat) (toLowerL s) with
  | none => s
  | some p => s.take p ++ s.drop (p + pat.length)

/-- JS `String.prototype.trim`. -/
def trimL (s : List Char) : List Char :=
  ((s.dropWhile Char.isWhitespace).reverse.dropWhile Char.isWhitespace).reverse

/-- The denylist of leaked system-instruction fragments. -/
def systemInstructionPhrases : List (List Char) :=
  ["You are Dermi, a dermatology assistant".data,
   "You are a dermatology assistant".data,
   "I am Dermi, a dermatology assistant".data,
   "never claim you can diagnose".data,
   "never diagnose - always recommend seeing a doctor".data,
   "keep answers brief".data]

/-- Fallback returned when the raw payload is empty. -/
def apologyMsg : String :=
  "I apologize, but I couldn\x27t generate a proper response. Could you try asking your question differently?"

/-- Fallback returned when cleaning leaves fewer than 10 characters. -/
def needDetailMsg : String :=
  "I\x27m here to help with your skin health questions. Could you provide more details about your question?"

/-- Embeds `extractModelResponse(response, modelName)`. -/
def extractModelResponse (response modelName : String) : String :=
  if response.length < 1 then apologyMsg
  else
    let m := modelName.data
    let r0 := response.data
    let r1 :=
      if containsL "mistral".data m then
        removeSpanDotall "[INST]".data "[/INST]".data (removeSTags r0)
      else if containsL "phi-2".data m then
        removeAngleSpans
          (removeSpanDotall "<|USER|>".data "<|ASSISTANT|>".data r0)
      else if containsL "flan-t5".data m then r0
      else if containsL "opt".data m then
        blankLinesStarting "Human:".data (removeHumanDermiHeader r0)
      else r0
    let r2 := stripRoleLabel r1
    let r3 := blankLinesStarting "Q:".data r2
    let r4 := systemInstructionPhrases.foldl (fun acc ph => removeFirstCI ph acc) r3
    let r5 := trimL r4
    if r5.length < 10 then needDetailMsg else String.mk r5

/-! ## Dispatch engine

Embeds `callHuggingFaceAPI(inputs, attemptNumber, modelIndex)`.  The network
is an oracle `env : Nat → Nat → AttemptOutcome` giving, for each
(modelIndex, attemptNumber) pair, the classified outcome of that axios call:
a success carrying the raw continuation string (the coercion of
`response.data` through `generated_text` / stringification, lines 345-360 of
the source, is folded into the oracle), a busy/loading failure (HTTP 503 or a
"loading" error message), a timeout (`ECONNABORTED`/`ETIMEDOUT`), or any
other error.  The module-level mutable variables become `GlobalState`.
Waiting (`await wait(n)`) is recorded in the trace as the number of
milliseconds waited immediately before the next attempt.  The fire-and-forget
`attemptServiceRecovery()` trigger on reaching `MAX_CONSECUTIVE_FAILURES` is
asynchronous in the source and is modelled separately (below), not inlined
into the dispatch state. -/

def MODELS : List String :=
  ["mistralai/Mistral-7B-Instruct-v0.1",
   "microsoft/phi-2",
   "facebook/opt-1.3b",
   "facebook/opt-350m",
   "google/flan-t5-small"]

def MAX_CONSECUTIVE_FAILURES : Nat := 5

/-- Embeds `wait(attemptNumber)`: exponential backoff delay in milliseconds,
`min(2000 * 2^attemptNumber, 30000)`. -/
def waitDelay (attemptNumber : Nat) : Nat := min (2000 * 2 ^ attemptNumber) 30000

inductive AttemptOutcome where
  | success (raw : String)
  | busy
  | timeout
  | otherError

structure GlobalState where
  modelLoadingInProgress : Bool
  modelSuccessfullyLoaded : Bool
  consecutiveFailures : Nat
  serviceRecoveryAttempts : Nat
  currentModel : String
deriving DecidableEq

/-- The initial module-level state (lines 24-30; `CURRENT_MODEL` defaults to
the primary model when `PRIMARY_MODEL` is unset). -/
def initialState : GlobalState :=
  ⟨false, false, 0, 0, "mistralai/Mistral-7B-Instruct-v0.1"⟩

/-- One network attempt as recorded in the trace: which model was contacted,
with which `attemptNumber`, and how many milliseconds of backoff were awaited
immediately before this attempt (0 for the first attempt of a call). -/
structure Attempt where
  modelIdx : Nat
  attemptNumber : Nat
  waitBefore : Nat
deriving DecidableEq

structure GenResult where
  generated_text : String
  model_used : String
deriving DecidableEq

inductive DispatchError where
  | missingKey
  | exhausted
deriving DecidableEq

/-- The `Error` message thrown in each terminal failure case. -/
def DispatchError.message : DispatchError → String
  | .missingKey => "Server configuration error: Missing API key"
  | .exhausted => "All models failed, unable to process request"

structure DispatchOut where
  result : Except DispatchError GenResult
  state : GlobalState
  trace : List Attempt

/-- Fallback substituted when the extracted response has fewer than 15
characters (dispatch still reports success, tagged with the model used). -/
def tooShortMsg : String :=
  "I\x27m here to help with skin health questions. Could you please ask about a specific skin condition or how to use the Dermi app?"

/-- Embeds `callHuggingFaceAPI`.  `pendingWait` is the backoff awaited just
before this invocation (0 at the top-level call). -/
def callHuggingFaceAPI (apiKey : Option String) (env : Nat → Nat → AttemptOutcome)
    (inputs : String) (attemptNumber modelIdx pendingWait : Nat)
    (st : GlobalState) : DispatchOut :=
  match apiKey with
  | none => ⟨.error .missingKey, st, []⟩
  | some _ =>
    if _hx : MODELS.length ≤ modelIdx then ⟨.error .exhausted, st, []⟩
    else
      let modelName := MODELS.getD modelIdx ""
      let st1 : GlobalState := { st with currentModel := modelName }
      let entry : Attempt := ⟨modelIdx, attemptNumber, pendingWait⟩
      match env modelIdx attemptNumber with
      | .success raw =>
        let st2 : GlobalState :=
          { st1 with modelLoadingInProgress := false,
                     modelSuccessfullyLoaded := true,
                     consecutiveFailures := 0 }
        let generatedText := extractModelResponse raw modelName
        if generatedText.length < 15 then
          ⟨.ok ⟨tooShortMsg, modelName⟩, st2, [entry]⟩
        else
          ⟨.ok ⟨generatedText, modelName⟩, st2, [entry]⟩
      | .busy =>
        let st2 : GlobalState :=
          { st1 with consecutiveFailures := st1.consecutiveFailures + 1,
                     modelLoadingInProgress := true }
        if ha : attemptNumber < 2 then
          let o := callHuggingFaceAPI apiKey env inputs (attemptNumber + 1)
            modelIdx (waitDelay (attemptNumber + 1)) st2
          ⟨o.result, o.state, entry :: o.trace⟩
        else
          let o := callHuggingFaceAPI apiKey env inputs 0 (modelIdx + 1)
            (waitDelay (attemptNumber + 1)) st2
          ⟨o.result, o.state, entry :: o.trace⟩
      | .timeout =>
        let st2 : GlobalState :=
          { st1 with consecutiveFailures := st1.consecutiveFailures + 1 }
        let o := callHuggingFaceAPI apiKey env inputs 0 (modelIdx + 1)
          (waitDelay 0) st2
        ⟨o.result, o.state, entry :: o.trace⟩
      | .otherError =>
        let st2 : GlobalState :=
          { st1 with consecutiveFailures := st1.consecutiveFailures + 1 }
        let o := callHuggingFaceAPI apiKey env inputs 0 (modelIdx + 1)
          (waitDelay 0) st2
        ⟨o.result, o.state, entry :: o.trace⟩
termination_by (MODELS.length - modelIdx) * 4 + (3 - attemptNumber)
decreasing_by
  · omega
  · omega
  · omega
  · omega

/-! ## Request handler, recovery probe and status endpoint -/

inductive HandlerResponse where
  | ok (body : GenResult)
  | badRequest (error message : String)
deriving DecidableEq

/-- The degraded fallback payload returned when dispatch fails (lines
462-466). -/
def connectivityFallback : String :=
  "I\x27m having trouble connecting to my knowledge base, but I\x27m here to help with skin health questions. Could you try asking in a different way?"

/-- Embeds the `/api/huggingface` POST handler body (after the rate limiter):
`inputs = none` models an absent or empty `inputs` field (both falsy). -/
def handleHuggingFacePost (apiKey : Option String) (env : Nat → Nat → AttemptOutcome)
    (inputs : Option String) (st : GlobalState) : HandlerResponse × GlobalState :=
  match inputs with
  | none => (.badRequest "Bad Request" "The \x22inputs\x22 field is required", st)
  | some s =>
    if s.length = 0 then
      (.badRequest "Bad Request" "The \x22inputs\x22 field is required", st)
    else if 2000 < s.length then
      (.badRequest "Input too long" "The input text exceeds the maximum allowed length", st)
    else
      let o := callHuggingFaceAPI apiKey env s 0 0 0 st
      match o.result with
      | .ok data => (.ok data, o.state)
      | .error _ => (.ok ⟨connectivityFallback, "fallback_response"⟩, o.state)

/-- The `for (const modelName of MODELS)` loop of `attemptServiceRecovery`:
`renv i` tells whether the health-check call to model `i` returns 200. -/
def recoveryLoop (renv : Nat → Bool) : Nat → List String → GlobalState → Bool × GlobalState
  | _, [], st => (false, st)
  | i, name :: rest, st =>
    if renv i then
      (true, { st with currentModel := name,
                       modelSuccessfullyLoaded := true,
                       consecutiveFailures := 0,
                       serviceRecoveryAttempts := 0 })
    else recoveryLoop renv (i + 1) rest st

/-- Embeds `attemptServiceRecovery`.  The over-cap branch schedules a deferred
retry via `setTimeout` and returns without touching the counters; its
immediate effect (the only synchronous one) is modelled. -/
def attemptServiceRecovery (renv : Nat → Bool) (st : GlobalState) : Bool × GlobalState :=
  if 3 < st.serviceRecoveryAttempts then (false, st)
  else
    let st1 : GlobalState :=
      { st with serviceRecoveryAttempts := st.serviceRecoveryAttempts + 1 }
    recoveryLoop renv 0 MODELS st1

structure StatusBody where
  current_model : String
  model_loaded : Bool
  consecutive_failures : Nat
deriving DecidableEq

/-- Embeds the `/api/status` GET handler. -/
def statusEndpoint (st : GlobalState) : StatusBody :=
  ⟨st.currentModel, st.modelSuccessfullyLoaded, st.consecutiveFailures⟩

/-! ## Step equations for the dispatch recursion -/

theorem callHF_missingKey (env : Nat → Nat → AttemptOutcome) (inputs : String)
    (a i w : Nat) (st : GlobalState) :
    callHuggingFaceAPI none env inputs a i w st = ⟨.error .missingKey, st, []⟩ := by
  rw [callHuggingFaceAPI]

theorem callHF_exhausted (k : String) (env : Nat → Nat → AttemptOutcome)
    (inputs : String) (a i w : Nat) (st : GlobalState) (h : MODELS.length ≤ i) :
    callHuggingFaceAPI (some k) env inputs a i w st = ⟨.error .exhausted, st, []⟩ := by
  rw [callHuggingFaceAPI]
  simp [h]

theorem callHF_success (k : String) (env : Nat → Nat → AttemptOutcome)
    (inputs : String) (a i w : Nat) (st : GlobalState) (raw : String)
    (hi : i < MODELS.length) (henv : env i a = .success raw) :
    callHuggingFaceAPI (some k) env inputs a i w st =
      ⟨.ok ⟨if (extractModelResponse raw (MODELS.getD i "")).length < 15 then tooShortMsg
            else extractModelResponse raw (MODELS.getD i ""), MODELS.getD i ""⟩,
        ⟨false, true, 0, st.serviceRecoveryAttempts, MODELS.getD i ""⟩,
        [⟨i, a, w⟩]⟩ := by
  rw [callHuggingFaceAPI]
  simp only [Nat.not_le.mpr hi, dite_false, henv, dif_neg (Nat.not_le.mpr hi)]
  split <;> simp

theorem callHF_busy_retry (k : String) (env : Nat → Nat → AttemptOutcome)
    (inputs : String) (a i w : Nat) (st : GlobalState)
    (hi : i < MODELS.length) (henv : env i a = .busy) (ha : a < 2) :
    callHuggingFaceAPI (some k) env inputs a i w st =
      ⟨(callHuggingFaceAPI (some k) env inputs (a + 1) i (waitDelay (a + 1))
          ⟨true, st.modelSuccessfullyLoaded, st.consecutiveFailures + 1,
            st.serviceRecoveryAttempts, MODELS.getD i ""⟩).result,
        (callHuggingFaceAPI (some k) env inputs (a + 1) i (waitDelay (a + 1))
          ⟨true, st.modelSuccessfullyLoaded, st.consecutiveFailures + 1,
            st.serviceRecoveryAttempts, MODELS.getD i ""⟩).state,
        ⟨i, a, w⟩ ::
          (callHuggingFaceAPI (some k) env inputs (a + 1) i (waitDelay (a + 1))
            ⟨true, st.modelSuccessfullyLoaded, st.consecutiveFailures + 1,
              st.serviceRecoveryAttempts, MODELS.getD i ""⟩).trace⟩ := by
  conv_lhs => rw [callHuggingFaceAPI]
  simp only [henv, dif_neg (Nat.not_le.mpr hi), dif_pos ha]

theorem callHF_busy_advance (k : String) (env : Nat → Nat → AttemptOutcome)
    (inputs : String) (a i w : Nat) (st : GlobalState)
    (hi : i < MODELS.length) (henv : env i a = .busy) (ha : ¬ a < 2) :
    callHuggingFaceAPI (some k) env inputs a i w st =
      ⟨(callHuggingFaceAPI (some k) env inputs 0 (i + 1) (waitDelay (a + 1))
          ⟨true, st.modelSuccessfullyLoaded, st.consecutiveFailures + 1,
            st.serviceRecoveryAttempts, MODELS.getD i ""⟩).result,
        (callHuggingFaceAPI (some k) env inputs 0 (i + 1) (waitDelay (a + 1))
          ⟨true, st.modelSuccessfullyLoaded, st.consecutiveFailures + 1,
            st.serviceRecoveryAttempts, MODELS.getD i ""⟩).state,
        ⟨i, a, w⟩ ::
          (callHuggingFaceAPI (some k) env inputs 0 (i + 1) (waitDelay (a + 1))
            ⟨true, st.modelSuccessfullyLoaded, st.consecutiveFailures + 1,
              st.serviceRecoveryAttempts, MODELS.getD i ""⟩).trace⟩ := by
  conv_lhs => rw [callHuggingFaceAPI]
  simp only [henv, dif_neg (Nat.not_le.mpr hi), dif_neg ha]

theorem callHF_timeout (k : String) (env : Nat → Nat → AttemptOutcome)
    (inputs : String) (a i w : Nat) (st : GlobalState)
    (hi : i < MODELS.length) (henv : env i a = .timeout) :
    callHuggingFaceAPI (some k) env inputs a i w st =
      ⟨(callHuggingFaceAPI (some k) env inputs 0 (i + 1) (waitDelay 0)
          ⟨st.modelLoadingInProgress, st.modelSuccessfullyLoaded,
            st.consecutiveFailures + 1, st.serviceRecoveryAttempts,
            MODELS.getD i ""⟩).result,
        (callHuggingFaceAPI (some k) env inputs 0 (i + 1) (waitDelay 0)
          ⟨st.modelLoadingInProgress, st.modelSuccessfullyLoaded,
            st.consecutiveFailures + 1, st.serviceRecoveryAttempts,
            MODELS.getD i ""⟩).state,
        ⟨i, a, w⟩ ::
          (callHuggingFaceAPI (some k) env inputs 0 (i + 1) (waitDelay 0)
            ⟨st.modelLoadingInProgress, st.modelSuccessfullyLoaded,
              st.consecutiveFailures + 1, st.serviceRecoveryAttempts,
              MODELS.getD i ""⟩).trace⟩ := by
  conv_lhs => rw [callHuggingFaceAPI]
  simp only [henv, dif_neg (Nat.not_le.mpr hi)]

theorem callHF_otherError (k : String) (env : Nat → Nat → AttemptOutcome)
    (inputs : String) (a i w : Nat) (st : GlobalState)
    (hi : i < MODELS.length) (henv : env i a = .otherError) :
    callHuggingFaceAPI (some k) env inputs a i w st =
      ⟨(callHuggingFaceAPI (some k) env inputs 0 (i + 1) (waitDelay 0)
          ⟨st.modelLoadingInProgress, st.modelSuccessfullyLoaded,
            st.consecutiveFailures + 1, st.serviceRecoveryAttempts,
            MODELS.getD i ""⟩).result,
        (callHuggingFaceAPI (some k) env inputs 0 (i + 1) (waitDelay 0)
          ⟨st.modelLoadingInProgress, st.modelSuccessfullyLoaded,
            st.consecutiveFailures + 1, st.serviceRecoveryAttempts,
            MODELS.getD i ""⟩).state,
        ⟨i, a, w⟩ ::
          (callHuggingFaceAPI (some k) env inputs 0 (i + 1) (waitDelay 0)
            ⟨st.modelLoadingInProgress, st.modelSuccessfullyLoaded,
              st.consecutiveFailures + 1, st.serviceRecoveryAttempts,
              MODELS.getD i ""⟩).trace⟩ := by
  conv_lhs => rw [callHuggingFaceAPI]
  simp only [henv, dif_neg (Nat.not_le.mpr hi)]

/-- Custom induction principle following the recursion structure of
`callHuggingFaceAPI` (proved by strong induction on its termination
measure), with every intermediate state spelled out. -/
theorem dispatch_induction (apiKey : Option String) (env : Nat → Nat → AttemptOutcome)
    (motive : Nat → Nat → Nat → GlobalState → Prop)
    (hnone : apiKey = none → ∀ a i w st, motive a i w st)
    (hexh : ∀ k, apiKey = some k → ∀ a i w st, MODELS.length ≤ i → motive a i w st)
    (hsucc : ∀ k, apiKey = some k → ∀ a i w st raw, i < MODELS.length →
      env i a = .success raw → motive a i w st)
    (hbusyR : ∀ k, apiKey = some k → ∀ a i w st, i < MODELS.length →
      env i a = .busy → a < 2 →
      motive (a + 1) i (waitDelay (a + 1))
        ⟨true, st.modelSuccessfullyLoaded, st.consecutiveFailures + 1,
          st.serviceRecoveryAttempts, MODELS.getD i ""⟩ →
      motive a i w st)
    (hbusyA : ∀ k, apiKey = some k → ∀ a i w st, i < MODELS.length →
      env i a = .busy → ¬ a < 2 →
      motive 0 (i + 1) (waitDelay (a + 1))
        ⟨true, st.modelSuccessfullyLoaded, st.consecutiveFailures + 1,
          st.serviceRecoveryAttempts, MODELS.getD i ""⟩ →
      motive a i w st)
    (htime : ∀ k, apiKey = some k → ∀ a i w st, i < MODELS.length →
      env i a = .timeout →
      motive 0 (i + 1) (waitDelay 0)
        ⟨st.modelLoadingInProgress, st.modelSuccessfullyLoaded,
          st.consecutiveFailures + 1, st.serviceRecoveryAttempts,
          MODELS.getD i ""⟩ →
      motive a i w st)
    (hother : ∀ k, apiKey = some k → ∀ a i w st, i < MODELS.length →
      env i a = .otherError →
      motive 0 (i + 1) (waitDelay 0)
        ⟨st.modelLoadingInProgress, st.modelSuccessfullyLoaded,
          st.consecutiveFailures + 1, st.serviceRecoveryAttempts,
          MODELS.getD i ""⟩ →
      motive a i w st) :
    ∀ a i w st, motive a i w st := by
  have key : ∀ n a i w st, (MODELS.length - i) * 4 + (3 - a) ≤ n → motive a i w st := by
    intro n
    induction n with
    | zero =>
      intro a i w st hm
      match hk : apiKey with
      | none => exact hnone rfl a i w st
      | some k => exact hexh k rfl a i w st (by omega)
    | succ n ihn =>
      intro a i w st hm
      match hk : apiKey with
      | none => exact hnone rfl a i w st
      | some k =>
        by_cases hi : MODELS.length ≤ i
        · exact hexh k rfl a i w st hi
        · match he : env i a with
          | .success raw =>
            exact hsucc k rfl a i w st raw (by omega) he
          | .busy =>
            by_cases ha : a < 2
            · exact hbusyR k rfl a i w st (by omega) he ha (ihn _ _ _ _ (by omega))
            · exact hbusyA k rfl a i w st (by omega) he ha (ihn _ _ _ _ (by omega))
          | .timeout =>
            exact htime k rfl a i w st (by omega) he (ihn _ _ _ _ (by omega))
          | .otherError =>
            exact hother k rfl a i w st (by omega) he (ihn _ _ _ _ (by omega))
  exact fun a i w st => key _ a i w st le_rfl

/-! ## Invariants of the dispatch recursion -/

theorem waitDelay_le_30000 (n : Nat) : waitDelay n ≤ 30000 :=
  Nat.min_le_right _ _

theorem waitDelay_strict_mono_low (k : Nat) (hk : k < 4) :
    waitDelay k < waitDelay (k + 1) := by
  interval_cases k <;> decide

/-- Relation between two consecutive trace entries: either a same-backend
retry (attempt number incremented, backoff `waitDelay (attempt + 1)`
performed) or a failover to the next backend with the attempt number reset
to 0. -/
def retryStep (e e' : Attempt) : Prop :=
  (e'.modelIdx = e.modelIdx ∧ e'.attemptNumber = e.attemptNumber + 1 ∧
    e'.waitBefore = waitDelay (e.attemptNumber + 1)) ∨
  (e'.modelIdx = e.modelIdx + 1 ∧ e'.attemptNumber = 0)

theorem dispatch_trace_length_le (apiKey : Option String)
    (env : Nat → Nat → AttemptOutcome) (inputs : String) :
    ∀ a i w st, (callHuggingFaceAPI apiKey env inputs a i w st).trace.length ≤
      3 * (MODELS.length - i) - min a 2 := by
  refine dispatch_induction apiKey env _ ?_ ?_ ?_ ?_ ?_ ?_ ?_
  · intro hk a i w st
    subst hk
    simp [callHF_missingKey]
  · intro k hk a i w st hi
    subst hk
    simp [callHF_exhausted _ _ _ _ _ _ _ hi]
  · intro k hk a i w st raw hi he
    subst hk
    rw [callHF_success _ _ _ _ _ _ _ _ hi he]
    simp only [List.length_cons, List.length_nil]
    omega
  · intro k hk a i w st hi he ha ih
    subst hk
    rw [callHF_busy_retry _ _ _ _ _ _ _ hi he ha]
    simp only [List.length_cons]
    omega
  · intro k hk a i w st hi he ha ih
    subst hk
    rw [callHF_busy_advance _ _ _ _ _ _ _ hi he ha]
    simp only [List.length_cons]
    omega
  · intro k hk a i w st hi he ih
    subst hk
    rw [callHF_timeout _ _ _ _ _ _ _ hi he]
    simp only [List.length_cons]
    omega
  · intro k hk a i w st hi he ih
    subst hk
    rw [callHF_otherError _ _ _ _ _ _ _ hi he]
    simp only [List.length_cons]
    omega

theorem dispatch_cf (apiKey : Option String)
    (env : Nat → Nat → AttemptOutcome) (inputs : String) :
    ∀ a i w st,
      (∀ r, (callHuggingFaceAPI apiKey env inputs a i w st).result = .ok r →
        (callHuggingFaceAPI apiKey env inputs a i w st).state.consecutiveFailures = 0) ∧
      (∀ e, (callHuggingFaceAPI apiKey env inputs a i w st).result = .error e →
        (callHuggingFaceAPI apiKey env inputs a i w st).state.consecutiveFailures =
          st.consecutiveFailures +
            (callHuggingFaceAPI apiKey env inputs a i w st).trace.length) := by
  refine dispatch_induction apiKey env _ ?_ ?_ ?_ ?_ ?_ ?_ ?_
  · intro hk a i w st
    subst hk
    simp [callHF_missingKey]
  · intro k hk a i w st hi
    subst hk
    simp [callHF_exhausted _ _ _ _ _ _ _ hi]
  · intro k hk a i w st raw hi he
    subst hk
    rw [callHF_success _ _ _ _ _ _ _ _ hi he]
    simp
  · intro k hk a i w st hi he ha ih
    subst hk
    rw [callHF_busy_retry _ _ _ _ _ _ _ hi he ha]
    refine ⟨fun r hr => (ih.1 r hr : _), fun e hee => ?_⟩
    have h2 := ih.2 e hee
    simp only [List.length_cons]
    simp only [GlobalState.consecutiveFailures] at h2
    omega
  · intro k hk a i w st hi he ha ih
    subst hk
    rw [callHF_busy_advance _ _ _ _ _ _ _ hi he ha]
    refine ⟨fun r hr => (ih.1 r hr : _), fun e hee => ?_⟩
    have h2 := ih.2 e hee
    simp only [List.length_cons]
    simp only [GlobalState.consecutiveFailures] at h2
    omega
  · intro k hk a i w st hi he ih
    subst hk
    rw [callHF_timeout _ _ _ _ _ _ _ hi he]
    refine ⟨fun r hr => (ih.1 r hr : _), fun e hee => ?_⟩
    have h2 := ih.2 e hee
    simp only [List.length_cons]
    simp only [GlobalState.consecutiveFailures] at h2
    omega
  · intro k hk a i w st hi he ih
    subst hk
    rw [callHF_otherError _ _ _ _ _ _ _ hi he]
    refine ⟨fun r hr => (ih.1 r hr : _), fun e hee => ?_⟩
    have h2 := ih.2 e hee
    simp only [List.length_cons]
    simp only [GlobalState.consecutiveFailures] at h2
    omega

theorem dispatch_trace_mem (apiKey : Option String)
    (env : Nat → Nat → AttemptOutcome) (inputs : String) :
    ∀ a i w st, w ≤ 30000 →
      ∀ e ∈ (callHuggingFaceAPI apiKey env inputs a i w st).trace,
        i ≤ e.modelIdx ∧ e.modelIdx < MODELS.length ∧
          e.attemptNumber ≤ max a 2 ∧ e.waitBefore ≤ 30000 := by
  refine dispatch_induction apiKey env _ ?_ ?_ ?_ ?_ ?_ ?_ ?_
  · intro hk a i w st _ e he
    subst hk
    simp [callHF_missingKey] at he
  · intro k hk a i w st hi _ e he
    subst hk
    simp [callHF_exhausted _ _ _ _ _ _ _ hi] at he
  · intro k hk a i w st raw hi he hw e hmem
    subst hk
    rw [callHF_success _ _ _ _ _ _ _ _ hi he] at hmem
    simp only [List.mem_singleton] at hmem
    subst hmem
    refine ⟨le_refl _, hi, ?_, hw⟩
    simp [le_max_left]
  · intro k hk a i w st hi he ha ih hw e hmem
    subst hk
    rw [callHF_busy_retry _ _ _ _ _ _ _ hi he ha] at hmem
    simp only [List.mem_cons] at hmem
    rcases hmem with rfl | hmem
    · exact ⟨le_refl _, hi, by simp [le_max_left], hw⟩
    · have := ih (waitDelay_le_30000 _) e hmem
      refine ⟨this.1, this.2.1, ?_, this.2.2.2⟩
      have := this.2.2.1
      omega
  · intro k hk a i w st hi he ha ih hw e hmem
    subst hk
    rw [callHF_busy_advance _ _ _ _ _ _ _ hi he ha] at hmem
    simp only [List.mem_cons] at hmem
    rcases hmem with rfl | hmem
    · exact ⟨le_refl _, hi, by simp [le_max_left], hw⟩
    · have := ih (waitDelay_le_30000 _) e hmem
      refine ⟨by omega, this.2.1, ?_, this.2.2.2⟩
      have := this.2.2.1
      omega
  · intro k hk a i w st hi he ih hw e hmem
    subst hk
    rw [callHF_timeout _ _ _ _ _ _ _ hi he] at hmem
    simp only [List.mem_cons] at hmem
    rcases hmem with rfl | hmem
    · exact ⟨le_refl _, hi, by simp [le_max_left], hw⟩
    · have := ih (waitDelay_le_30000 _) e hmem
      refine ⟨by omega, this.2.1, ?_, this.2.2.2⟩
      have := this.2.2.1
      omega
  · intro k hk a i w st hi he ih hw e hmem
    subst hk
    rw [callHF_otherError _ _ _ _ _ _ _ hi he] at hmem
    simp only [List.mem_cons] at hmem
    rcases hmem with rfl | hmem
    · exact ⟨le_refl _, hi, by simp [le_max_left], hw⟩
    · have := ih (waitDelay_le_30000 _) e hmem
      refine ⟨by omega, this.2.1, ?_, this.2.2.2⟩
      have := this.2.2.1
      omega

theorem dispatch_head_chain (apiKey : Option String)
    (env : Nat → Nat → AttemptOutcome) (inputs : String) :
    ∀ a i w st,
      (∀ x, (callHuggingFaceAPI apiKey env inputs a i w st).trace.head? = some x →
        x = ⟨i, a, w⟩) ∧
      List.Chain' retryStep (callHuggingFaceAPI apiKey env inputs a i w st).trace := by
  refine dispatch_induction apiKey env _ ?_ ?_ ?_ ?_ ?_ ?_ ?_
  · intro hk a i w st
    subst hk
    simp [callHF_missingKey]
  · intro k hk a i w st hi
    subst hk
    simp [callHF_exhausted _ _ _ _ _ _ _ hi]
  · intro k hk a i w st raw hi he
    subst hk
    rw [callHF_success _ _ _ _ _ _ _ _ hi he]
    refine ⟨?_, List.chain'_singleton _⟩
    intro x hx
    simpa using hx.symm
  · intro k hk a i w st hi he ha ih
    subst hk
    rw [callHF_busy_retry _ _ _ _ _ _ _ hi he ha]
    refine ⟨?_, ?_⟩
    · intro x hx
      simpa using hx.symm
    · rw [List.chain'_cons']
      refine ⟨?_, ih.2⟩
      intro y hy
      have hy' := ih.1 y hy
      subst hy'
      exact Or.inl ⟨rfl, rfl, rfl⟩
  · intro k hk a i w st hi he ha ih
    subst hk
    rw [callHF_busy_advance _ _ _ _ _ _ _ hi he ha]
    refine ⟨?_, ?_⟩
    · intro x hx
      simpa using hx.symm
    · rw [List.chain'_cons']
      refine ⟨?_, ih.2⟩
      intro y hy
      have hy' := ih.1 y hy
      subst hy'
      exact Or.inr ⟨rfl, rfl⟩
  · intro k hk a i w st hi he ih
    subst hk
    rw [callHF_timeout _ _ _ _ _ _ _ hi he]
    refine ⟨?_, ?_⟩
    · intro x hx
      simpa using hx.symm
    · rw [List.chain'_cons']
      refine ⟨?_, ih.2⟩
      intro y hy
      have hy' := ih.1 y hy
      subst hy'
      exact Or.inr ⟨rfl, rfl⟩
  · intro k hk a i w st hi he ih
    subst hk
    rw [callHF_otherError _ _ _ _ _ _ _ hi he]
    refine ⟨?_, ?_⟩
    · intro x hx
      simpa using hx.symm
    · rw [List.chain'_cons']
      refine ⟨?_, ih.2⟩
      intro y hy
      have hy' := ih.1 y hy
      subst hy'
      exact Or.inr ⟨rfl, rfl⟩

theorem dispatch_state_last (apiKey : Option String)
    (env : Nat → Nat → AttemptOutcome) (inputs : String) :
    ∀ a i w st,
      ((callHuggingFaceAPI apiKey env inputs a i w st).trace = [] →
        (callHuggingFaceAPI apiKey env inputs a i w st).state = st) ∧
      (∀ x, (callHuggingFaceAPI apiKey env inputs a i w st).trace.getLast? = some x →
        (callHuggingFaceAPI apiKey env inputs a i w st).state.currentModel =
          MODELS.getD x.modelIdx "") := by
  refine dispatch_induction apiKey env _ ?_ ?_ ?_ ?_ ?_ ?_ ?_
  · intro hk a i w st
    subst hk
    simp [callHF_missingKey]
  · intro k hk a i w st hi
    subst hk
    simp [callHF_exhausted _ _ _ _ _ _ _ hi]
  · intro k hk a i w st raw hi he
    subst hk
    rw [callHF_success _ _ _ _ _ _ _ _ hi he]
    refine ⟨by simp, ?_⟩
    intro x hx
    simp only [List.getLast?_singleton, Option.some.injEq] at hx
    subst hx
    rfl
  · intro k hk a i w st hi he ha ih
    subst hk
    rw [callHF_busy_retry _ _ _ _ _ _ _ hi he ha]
    refine ⟨by simp, ?_⟩
    intro x hx
    match ht : (callHuggingFaceAPI (some k) env inputs (a + 1) i (waitDelay (a + 1))
        ⟨true, st.modelSuccessfullyLoaded, st.consecutiveFailures + 1,
          st.serviceRecoveryAttempts, MODELS.getD i ""⟩).trace with
    | [] =>
      rw [ht] at hx
      simp only [List.getLast?_singleton, Option.some.injEq] at hx
      subst hx
      have hst := ih.1 ht
      rw [hst]
    | y :: ys =>
      rw [ht] at hx
      rw [List.getLast?_cons_cons] at hx
      exact ih.2 x (ht ▸ hx)
  · intro k hk a i w st hi he ha ih
    subst hk
    rw [callHF_busy_advance _ _ _ _ _ _ _ hi he ha]
    refine ⟨by simp, ?_⟩
    intro x hx
    match ht : (callHuggingFaceAPI (some k) env inputs 0 (i + 1) (waitDelay (a + 1))
        ⟨true, st.modelSuccessfullyLoaded, st.consecutiveFailures + 1,
          st.serviceRecoveryAttempts, MODELS.getD i ""⟩).trace with
    | [] =>
      rw [ht] at hx
      simp only [List.getLast?_singleton, Option.some.injEq] at hx
      subst hx
      have hst := ih.1 ht
      rw [hst]
    | y :: ys =>
      rw [ht] at hx
      rw [List.getLast?_cons_cons] at hx
      exact ih.2 x (ht ▸ hx)
  · intro k hk a i w st hi he ih
    subst hk
    rw [callHF_timeout _ _ _ _ _ _ _ hi he]
    refine ⟨by simp, ?_⟩
    intro x hx
    match ht : (callHuggingFaceAPI (some k) env inputs 0 (i + 1) (waitDelay 0)
        ⟨st.modelLoadingInProgress, st.modelSuccessfullyLoaded,
          st.consecutiveFailures + 1, st.serviceRecoveryAttempts,
          MODELS.getD i ""⟩).trace with
    | [] =>
      rw [ht] at hx
      simp only [List.getLast?_singleton, Option.some.injEq] at hx
      subst hx
      have hst := ih.1 ht
      rw [hst]
    | y :: ys =>
      rw [ht] at hx
      rw [List.getLast?_cons_cons] at hx
      exact ih.2 x (ht ▸ hx)
  · intro k hk a i w st hi he ih
    subst hk
    rw [callHF_otherError _ _ _ _ _ _ _ hi he]
    refine ⟨by simp, ?_⟩
    intro x hx
    match ht : (callHuggingFaceAPI (some k) env inputs 0 (i + 1) (waitDelay 0)
        ⟨st.modelLoadingInProgress, st.modelSuccessfullyLoaded,
          st.consecutiveFailures + 1, st.serviceRecoveryAttempts,
          MODELS.getD i ""⟩).trace with
    | [] =>
      rw [ht] at hx
      simp only [List.getLast?_singleton, Option.some.injEq] at hx
      subst hx
      have hst := ih.1 ht
      rw [hst]
    | y :: ys =>
      rw [ht] at hx
      rw [List.getLast?_cons_cons] at hx
      exact ih.2 x (ht ▸ hx)

theorem dispatch_nonempty (k : String) (env : Nat → Nat → AttemptOutcome)
    (inputs : String) (a i w : Nat) (st : GlobalState) (hi : i < MODELS.length) :
    (callHuggingFaceAPI (some k) env inputs a i w st).trace ≠ [] := by
  match he : env i a with
  | .success raw =>
    rw [callHF_success _ _ _ _ _ _ _ _ hi he]
    simp
  | .busy =>
    by_cases ha : a < 2
    · rw [callHF_busy_retry _ _ _ _ _ _ _ hi he ha]
      simp
    · rw [callHF_busy_advance _ _ _ _ _ _ _ hi he ha]
      simp
  | .timeout =>
    rw [callHF_timeout _ _ _ _ _ _ _ hi he]
    simp
  | .otherError =>
    rw [callHF_otherError _ _ _ _ _ _ _ hi he]
    simp

theorem dispatch_nosuccess_exhausted (apiKey : Option String)
    (env : Nat → Nat → AttemptOutcome) (inputs : String) :
    ∀ a i w st, ∀ k, apiKey = some k →
      (∀ i' a' raw, env i' a' ≠ .success raw) →
      (callHuggingFaceAPI apiKey env inputs a i w st).result = .error .exhausted := by
  refine dispatch_induction apiKey env _ ?_ ?_ ?_ ?_ ?_ ?_ ?_
  · intro hk a i w st k hk'
    rw [hk] at hk'
    cases hk'
  · intro k hk a i w st hi k' hk' hns
    subst hk
    rw [callHF_exhausted _ _ _ _ _ _ _ hi]
  · intro k hk a i w st raw hi he k' hk' hns
    exact absurd he (hns i a raw)
  · intro k hk a i w st hi he ha ih k' hk' hns
    subst hk
    rw [callHF_busy_retry _ _ _ _ _ _ _ hi he ha]
    exact ih k rfl hns
  · intro k hk a i w st hi he ha ih k' hk' hns
    subst hk
    rw [callHF_busy_advance _ _ _ _ _ _ _ hi he ha]
    exact ih k rfl hns
  · intro k hk a i w st hi he ih k' hk' hns
    subst hk
    rw [callHF_timeout _ _ _ _ _ _ _ hi he]
    exact ih k rfl hns
  · intro k hk a i w st hi he ih k' hk' hns
    subst hk
    rw [callHF_otherError _ _ _ _ _ _ _ hi he]
    exact ih k rfl hns

theorem recoveryLoop_cf (renv : Nat → Bool) :
    ∀ (models : List String) (i : Nat) (st : GlobalState),
      ((recoveryLoop renv i models st).1 = true →
        (recoveryLoop renv i models st).2.consecutiveFailures = 0) ∧
      ((recoveryLoop renv i models st).1 = false →
        (recoveryLoop renv i models st).2 = st) := by
  intro models
  induction models with
  | nil =>
    intro i st
    simp [recoveryLoop]
  | cons name rest ih =>
    intro i st
    cases hr : renv i with
    | true => simp [recoveryLoop, hr]
    | false =>
      simp only [recoveryLoop, hr, Bool.false_eq_true, if_false]
      exact ih (i + 1) st

/-! ## Claim theorems -/

/-- C1: for every dispatch call and every backend behavior, the search over
(backend, attempt) is bounded: a top-level call makes at most
15 = 3 attempts per catalog entry × 5 catalog entries network attempts, and
once the backend index passes the end of the catalog no backend is contacted
(the trace of such a call is empty; the recursion terminates, as certified by
the well-founded definition of `callHuggingFaceAPI`). -/
theorem dispatch_attempts_bounded (apiKey : Option String)
    (env : Nat → Nat → AttemptOutcome) (inputs : String) (st : GlobalState) :
    (callHuggingFaceAPI apiKey env inputs 0 0 0 st).trace.length ≤ 15 ∧
    (∀ a i w st', MODELS.length ≤ i →
      (callHuggingFaceAPI apiKey env inputs a i w st').trace = []) := by
  constructor
  · have h := dispatch_trace_length_le apiKey env inputs 0 0 0 st
    have hL : MODELS.length = 5 := rfl
    omega
  · intro a i w st' hi
    match apiKey with
    | none => rw [callHF_missingKey]
    | some k => rw [callHF_exhausted _ _ _ _ _ _ _ hi]

/-- Witness for C1 at a concrete key, environment and input. -/
theorem dispatch_attempts_bounded_witness :
    (callHuggingFaceAPI (some "k") (fun _ _ => .busy) "hi" 0 0 0
        initialState).trace.length ≤ 15 ∧
    (callHuggingFaceAPI (some "k") (fun _ _ => .busy) "hi" 1 5 0
        initialState).trace = [] :=
  ⟨(dispatch_attempts_bounded (some "k") (fun _ _ => .busy) "hi" initialState).1,
   (dispatch_attempts_bounded (some "k") (fun _ _ => .busy) "hi" initialState).2
      1 5 0 initialState (by decide)⟩

/-- C2: if no backend ever succeeds, dispatch fails with the terminal
exhaustion error, and the request handler converts it into the generic
connectivity fallback payload returned as a normal success response (no
HTTP-level failure). -/
theorem exhaustion_returns_soft_fallback (k : String)
    (env : Nat → Nat → AttemptOutcome) (inputs : String) (st : GlobalState)
    (hns : ∀ i a raw, env i a ≠ .success raw)
    (h1 : inputs.length ≠ 0) (h2 : inputs.length ≤ 2000) :
    (callHuggingFaceAPI (some k) env inputs 0 0 0 st).result = .error .exhausted ∧
    (handleHuggingFacePost (some k) env (some inputs) st).1 =
      .ok ⟨connectivityFallback, "fallback_response"⟩ := by
  have hres := dispatch_nosuccess_exhausted (some k) env inputs 0 0 0 st k rfl hns
  refine ⟨hres, ?_⟩
  simp only [handleHuggingFacePost, if_neg h1, if_neg (by omega : ¬ 2000 < inputs.length)]
  rw [hres]

/-- Witness for C2: all backends time out. -/
theorem exhaustion_returns_soft_fallback_witness :
    (callHuggingFaceAPI (some "k") (fun _ _ => .timeout) "hello" 0 0 0
        initialState).result = .error .exhausted ∧
    (handleHuggingFacePost (some "k") (fun _ _ => .timeout) (some "hello")
        initialState).1 = .ok ⟨connectivityFallback, "fallback_response"⟩ :=
  exhaustion_returns_soft_fallback "k" (fun _ _ => .timeout) "hello" initialState
    (fun _ _ _ h => AttemptOutcome.noConfusion h) (by decide) (by decide)

/-- C4: in any dispatch call started at attempt 0, every recorded backoff
wait is at most the 30000 ms cap, and within any run of same-backend retries
each retry's backoff wait is strictly longer than the previous retry's
wait. -/
theorem busy_backoff_monotone_capped (apiKey : Option String)
    (env : Nat → Nat → AttemptOutcome) (inputs : String) (st : GlobalState) :
    (∀ e ∈ (callHuggingFaceAPI apiKey env inputs 0 0 0 st).trace,
      e.waitBefore ≤ 30000) ∧
    (∀ (pre suf : List Attempt) (e1 e2 e3 : Attempt),
      (callHuggingFaceAPI apiKey env inputs 0 0 0 st).trace =
        pre ++ e1 :: e2 :: e3 :: suf →
      e1.modelIdx = e2.modelIdx → e2.modelIdx = e3.modelIdx →
      e2.waitBefore < e3.waitBefore) := by
  constructor
  · intro e he
    exact (dispatch_trace_mem apiKey env inputs 0 0 0 st (by omega) e he).2.2.2
  · intro pre suf e1 e2 e3 hsplit h12 h23
    have hchain := (dispatch_head_chain apiKey env inputs 0 0 0 st).2
    rw [hsplit] at hchain
    have hc2 := (List.chain'_append.mp hchain).2.1
    rw [List.chain'_cons] at hc2
    have r12 := hc2.1
    have hc3 := hc2.2
    rw [List.chain'_cons] at hc3
    have r23 := hc3.1
    have he1mem : e1 ∈ (callHuggingFaceAPI apiKey env inputs 0 0 0 st).trace := by
      rw [hsplit]
      simp
    have ha1 : e1.attemptNumber ≤ 2 := by
      have := (dispatch_trace_mem apiKey env inputs 0 0 0 st (by omega) e1 he1mem).2.2.1
      omega
    rcases r12 with ⟨_, ha12, hw2⟩ | ⟨hm12, _⟩
    · rcases r23 with ⟨_, ha23, hw3⟩ | ⟨hm23, _⟩
      · rw [hw2, hw3, ha12]
        exact waitDelay_strict_mono_low _ (by omega)
      · omega
    · omega

/-- Witness for C4: backend 0 is busy twice then succeeds, producing the
same-backend retry waits 4000 < 8000 ms. -/
theorem busy_backoff_monotone_capped_witness :
    (∀ e ∈ (callHuggingFaceAPI (some "k")
        (fun _ a => if a < 2 then .busy else .success "") "q" 0 0 0
        initialState).trace, e.waitBefore ≤ 30000) ∧
    (Attempt.waitBefore ⟨0, 1, 4000⟩ < Attempt.waitBefore ⟨0, 2, 8000⟩) := by
  have main := busy_backoff_monotone_capped (some "k")
    (fun _ a => if a < 2 then .busy else .success "") "q" initialState
  have hT : (callHuggingFaceAPI (some "k")
      (fun _ a => if a < 2 then .busy else .success "") "q" 0 0 0
      initialState).trace =
      [] ++ (⟨0, 0, 0⟩ : Attempt) :: (⟨0, 1, 4000⟩ : Attempt) ::
        (⟨0, 2, 8000⟩ : Attempt) :: [] := by
    rw [callHF_busy_retry _ _ _ _ _ _ _ (by decide) rfl (by decide)]
    rw [callHF_busy_retry _ _ _ _ _ _ _ (by decide) rfl (by decide)]
    rw [callHF_success _ _ _ _ _ _ _ _ (by decide) rfl]
    show (⟨0, 0, 0⟩ : Attempt) :: (⟨0, 1, waitDelay 1⟩ : Attempt) ::
        (⟨0, 2, waitDelay 2⟩ : Attempt) :: [] = _
    norm_num [waitDelay]
  exact ⟨main.1, main.2 [] [] ⟨0, 0, 0⟩ ⟨0, 1, 4000⟩ ⟨0, 2, 8000⟩ hT rfl rfl⟩

/-- Counterexample to C5 as stated: when backend 0 times out, the code
performs `await wait(0)` — a 2000 ms backoff — before contacting backend 1,
contradicting "no intervening backoff wait before moving on": the next
backend's attempt records a 2000 ms wait, not 0. -/
theorem timeout_no_wait_counterexample :
    (callHuggingFaceAPI (some "k")
        (fun i _ => if i = 0 then .timeout else .success "x") "q" 0 0 0
        initialState).trace = [⟨0, 0, 0⟩, ⟨1, 0, 2000⟩] ∧
    (Attempt.waitBefore ⟨1, 0, 2000⟩ ≠ 0) := by
  constructor
  · rw [callHF_timeout _ _ _ _ _ _ _ (by decide) rfl]
    rw [callHF_success _ _ _ _ _ _ _ _ (by decide) rfl]
    show (⟨0, 0, 0⟩ : Attempt) :: (⟨1, 0, waitDelay 0⟩ : Attempt) :: [] = _
    norm_num [waitDelay]
  · decide

/-- C5 (amended): on a timeout, dispatch advances to the next backend with
the attempt index reset to 0 and never retries the timed-out backend, but it
performs the minimal backoff wait `waitDelay 0 = 2000` ms before moving on
(rather than no wait). -/
theorem timeout_advances_next_backend_after_minimal_wait
    (k : String) (env : Nat → Nat → AttemptOutcome) (inputs : String)
    (a i w : Nat) (st : GlobalState)
    (hi : i < MODELS.length) (he : env i a = .timeout) :
    (callHuggingFaceAPI (some k) env inputs a i w st).trace =
      ⟨i, a, w⟩ ::
        (callHuggingFaceAPI (some k) env inputs 0 (i + 1) (waitDelay 0)
          ⟨st.modelLoadingInProgress, st.modelSuccessfullyLoaded,
            st.consecutiveFailures + 1, st.serviceRecoveryAttempts,
            MODELS.getD i ""⟩).trace ∧
    (callHuggingFaceAPI (some k) env inputs a i w st).result =
      (callHuggingFaceAPI (some k) env inputs 0 (i + 1) (waitDelay 0)
        ⟨st.modelLoadingInProgress, st.modelSuccessfullyLoaded,
          st.consecutiveFailures + 1, st.serviceRecoveryAttempts,
          MODELS.getD i ""⟩).result ∧
    waitDelay 0 = 2000 ∧
    (∀ e ∈ (callHuggingFaceAPI (some k) env inputs 0 (i + 1) (waitDelay 0)
        ⟨st.modelLoadingInProgress, st.modelSuccessfullyLoaded,
          st.consecutiveFailures + 1, st.serviceRecoveryAttempts,
          MODELS.getD i ""⟩).trace, i < e.modelIdx) := by
  rw [callHF_timeout _ _ _ _ _ _ _ hi he]
  refine ⟨rfl, rfl, by norm_num [waitDelay], ?_⟩
  intro e hmem
  have := (dispatch_trace_mem (some k) env inputs 0 (i + 1) (waitDelay 0)
    ⟨st.modelLoadingInProgress, st.modelSuccessfullyLoaded,
      st.consecutiveFailures + 1, st.serviceRecoveryAttempts,
      MODELS.getD i ""⟩ (waitDelay_le_30000 0) e hmem).1
  omega

/-- Witness for C5 (amended) at a concrete timeout environment. -/
theorem timeout_advances_next_backend_after_minimal_wait_witness :
    (callHuggingFaceAPI (some "k")
        (fun i _ => if i = 0 then .timeout else .success "x") "q" 0 0 0
        initialState).trace =
      ⟨0, 0, 0⟩ ::
        (callHuggingFaceAPI (some "k")
          (fun i _ => if i = 0 then .timeout else .success "x") "q" 0 1
          (waitDelay 0)
          ⟨initialState.modelLoadingInProgress,
            initialState.modelSuccessfullyLoaded,
            initialState.consecutiveFailures + 1,
            initialState.serviceRecoveryAttempts, MODELS.getD 0 ""⟩).trace ∧
    (callHuggingFaceAPI (some "k")
        (fun i _ => if i = 0 then .timeout else .success "x") "q" 0 0 0
        initialState).result =
      (callHuggingFaceAPI (some "k")
        (fun i _ => if i = 0 then .timeout else .success "x") "q" 0 1
        (waitDelay 0)
        ⟨initialState.modelLoadingInProgress,
          initialState.modelSuccessfullyLoaded,
          initialState.consecutiveFailures + 1,
          initialState.serviceRecoveryAttempts, MODELS.getD 0 ""⟩).result ∧
    waitDelay 0 = 2000 ∧
    (∀ e ∈ (callHuggingFaceAPI (some "k")
        (fun i _ => if i = 0 then .timeout else .success "x") "q" 0 1
        (waitDelay 0)
        ⟨initialState.modelLoadingInProgress,
          initialState.modelSuccessfullyLoaded,
          initialState.consecutiveFailures + 1,
          initialState.serviceRecoveryAttempts, MODELS.getD 0 ""⟩).trace,
      0 < e.modelIdx) :=
  timeout_advances_next_backend_after_minimal_wait "k"
    (fun i _ => if i = 0 then .timeout else .success "x") "q" 0 0 0
    initialState (by decide) rfl

/-- C6: `consecutiveFailures` is reset to zero exactly when a dispatch
attempt (ordinary or recovery) succeeds: a successful dispatch leaves it 0, a
dispatch that fails terminally leaves it at the initial value plus one
increment per failed attempt (no failing attempt resets it), a successful
recovery probe resets it to 0, and a recovery probe with no healthy backend
leaves it unchanged. -/
theorem consecutive_failures_reset_iff_success (apiKey : Option String)
    (env : Nat → Nat → AttemptOutcome) (inputs : String) (a i w : Nat)
    (st : GlobalState) (renv : Nat → Bool) (rst : GlobalState) :
    (∀ r, (callHuggingFaceAPI apiKey env inputs a i w st).result = .ok r →
      (callHuggingFaceAPI apiKey env inputs a i w st).state.consecutiveFailures = 0) ∧
    (∀ e, (callHuggingFaceAPI apiKey env inputs a i w st).result = .error e →
      (callHuggingFaceAPI apiKey env inputs a i w st).state.consecutiveFailures =
        st.consecutiveFailures +
          (callHuggingFaceAPI apiKey env inputs a i w st).trace.length) ∧
    ((attemptServiceRecovery renv rst).1 = true →
      (attemptServiceRecovery renv rst).2.consecutiveFailures = 0) ∧
    ((attemptServiceRecovery renv rst).1 = false →
      (attemptServiceRecovery renv rst).2.consecutiveFailures =
        rst.consecutiveFailures) := by
  refine ⟨(dispatch_cf apiKey env inputs a i w st).1,
    (dispatch_cf apiKey env inputs a i w st).2, ?_, ?_⟩
  · intro hok
    unfold attemptServiceRecovery at hok ⊢
    by_cases hcap : 3 < rst.serviceRecoveryAttempts
    · simp [hcap] at hok
    · simp only [if_neg hcap] at hok ⊢
      exact (recoveryLoop_cf renv MODELS 0 _).1 hok
  · intro hfail
    unfold attemptServiceRecovery at hfail ⊢
    by_cases hcap : 3 < rst.serviceRecoveryAttempts
    · simp [hcap]
    · simp only [if_neg hcap] at hfail ⊢
      rw [(recoveryLoop_cf renv MODELS 0 _).2 hfail]

/-- Witness for C6: a dispatch whose first attempt succeeds (the empty raw
payload normalizes to the apology fallback, which is long enough to be
returned as-is) resets the failure counter, which started at 3, to 0; and a
recovery probe whose first health check succeeds also resets it to 0. -/
theorem consecutive_failures_reset_iff_success_witness :
    (callHuggingFaceAPI (some "k") (fun _ _ => .success "") "q" 0 0 0
        ⟨false, false, 3, 0, "m"⟩).state.consecutiveFailures = 0 ∧
    ((attemptServiceRecovery (fun _ => true) ⟨false, false, 3, 0, "m"⟩).1 = true ∧
      (attemptServiceRecovery (fun _ => true)
        ⟨false, false, 3, 0, "m"⟩).2.consecutiveFailures = 0) := by
  have main := consecutive_failures_reset_iff_success (some "k")
    (fun _ _ => .success "") "q" 0 0 0 ⟨false, false, 3, 0, "m"⟩
    (fun _ => true) ⟨false, false, 3, 0, "m"⟩
  have hok : (callHuggingFaceAPI (some "k") (fun _ _ => .success "") "q" 0 0 0
      ⟨false, false, 3, 0, "m"⟩).result =
      .ok ⟨extractModelResponse "" (MODELS.getD 0 ""), MODELS.getD 0 ""⟩ := by
    rw [callHF_success _ _ _ _ _ _ _ _ (by decide) rfl]
    rw [if_neg (by decide)]
  have hrec : (attemptServiceRecovery (fun _ => true)
      ⟨false, false, 3, 0, "m"⟩).1 = true := by decide
  exact ⟨main.1 _ hok, hrec, main.2.2.1 hrec⟩

/-- C7: when a network call succeeds but the normalized text is shorter than
15 characters, dispatch substitutes the fixed "too short" fallback yet still
records the call as a success: `consecutiveFailures` is reset to 0 (not
incremented), the trace shows exactly one attempt (no failover), and the
result is tagged with the backend that was used. -/
theorem short_response_still_success (k : String)
    (env : Nat → Nat → AttemptOutcome) (inputs : String) (a i w : Nat)
    (st : GlobalState) (raw : String) (hi : i < MODELS.length)
    (he : env i a = .success raw)
    (hshort : (extractModelResponse raw (MODELS.getD i "")).length < 15) :
    callHuggingFaceAPI (some k) env inputs a i w st =
      ⟨.ok ⟨tooShortMsg, MODELS.getD i ""⟩,
        ⟨false, true, 0, st.serviceRecoveryAttempts, MODELS.getD i ""⟩,
        [⟨i, a, w⟩]⟩ := by
  rw [callHF_success _ _ _ _ _ _ _ _ hi he, if_pos hshort]

/-- Witness for C7: backend 0 returns "Use sunscreen." (14 characters after
normalization, which leaves it unchanged). -/
theorem short_response_still_success_witness :
    callHuggingFaceAPI (some "k")
        (fun _ _ => .success "Use sunscreen.") "q" 0 0 0 initialState =
      ⟨.ok ⟨tooShortMsg, MODELS.getD 0 ""⟩,
        ⟨false, true, 0, initialState.serviceRecoveryAttempts, MODELS.getD 0 ""⟩,
        [⟨0, 0, 0⟩]⟩ :=
  short_response_still_success "k" (fun _ _ => .success "Use sunscreen.") "q"
    0 0 0 initialState "Use sunscreen." (by decide) rfl (by decide)

/-- C8: a missing API key makes dispatch fail before any network attempt
(empty trace, state untouched, no retry or failover), with the fatal
configuration error message, and the request handler surfaces it as the
service-degraded fallback payload. -/
theorem missing_key_short_circuits (env : Nat → Nat → AttemptOutcome)
    (inputs : String) (a i w : Nat) (st : GlobalState) (s : String)
    (h1 : s.length ≠ 0) (h2 : s.length ≤ 2000) :
    callHuggingFaceAPI none env inputs a i w st = ⟨.error .missingKey, st, []⟩ ∧
    DispatchError.message .missingKey =
      "Server configuration error: Missing API key" ∧
    handleHuggingFacePost none env (some s) st =
      (.ok ⟨connectivityFallback, "fallback_response"⟩, st) := by
  refine ⟨callHF_missingKey env inputs a i w st, rfl, ?_⟩
  simp only [handleHuggingFacePost, if_neg h1, if_neg (by omega : ¬ 2000 < s.length)]
  rw [callHF_missingKey]

/-- Witness for C8 at a concrete request. -/
theorem missing_key_short_circuits_witness :
    callHuggingFaceAPI none (fun _ _ => .busy) "q" 0 0 0 initialState =
      ⟨.error .missingKey, initialState, []⟩ ∧
    DispatchError.message .missingKey =
      "Server configuration error: Missing API key" ∧
    handleHuggingFacePost none (fun _ _ => .busy) (some "hello") initialState =
      (.ok ⟨connectivityFallback, "fallback_response"⟩, initialState) :=
  missing_key_short_circuits (fun _ _ => .busy) "q" 0 0 0 initialState "hello"
    (by decide) (by decide)

/-- C10: every dispatch attempt at catalog index `i` sets the globally
visible current-backend identifier to `MODELS[i]` before issuing the call,
failing attempts included; hence after dispatch the `/api/status` accessor
reports as `current_model` the identifier of the last attempted backend —
which, when every attempt failed, is a backend that never responded
successfully. -/
theorem status_reports_last_attempted_model (k : String)
    (env : Nat → Nat → AttemptOutcome) (inputs : String) (a i w : Nat)
    (st : GlobalState) (x : Attempt)
    (hlast : (callHuggingFaceAPI (some k) env inputs a i w st).trace.getLast? =
      some x) :
    (statusEndpoint
        (callHuggingFaceAPI (some k) env inputs a i w st).state).current_model =
      MODELS.getD x.modelIdx "" :=
  (dispatch_state_last (some k) env inputs a i w st).2 x hlast

/-- Witness for C10: every backend fails with a generic error; the status
endpoint reports the last catalog entry even though nothing succeeded. -/
theorem status_reports_last_attempted_model_witness :
    (statusEndpoint
        (callHuggingFaceAPI (some "k") (fun _ _ => .otherError) "q" 0 0 0
          initialState).state).current_model =
      MODELS.getD (Attempt.modelIdx ⟨4, 0, 2000⟩) "" := by
  apply status_reports_last_attempted_model
  rw [callHF_otherError _ _ _ _ _ _ _ (by decide) rfl]
  rw [callHF_otherError _ _ _ _ _ _ _ (by decide) rfl]
  rw [callHF_otherError _ _ _ _ _ _ _ (by decide) rfl]
  rw [callHF_otherError _ _ _ _ _ _ _ (by decide) rfl]
  rw [callHF_otherError _ _ _ _ _ _ _ (by decide) rfl]
  rw [callHF_exhausted _ _ _ _ _ _ _ (by decide)]
  show ((⟨0, 0, 0⟩ : Attempt) :: (⟨1, 0, waitDelay 0⟩ : Attempt) ::
      (⟨2, 0, waitDelay 0⟩ : Attempt) :: (⟨3, 0, waitDelay 0⟩ : Attempt) ::
      (⟨4, 0, waitDelay 0⟩ : Attempt) :: []).getLast? = _
  norm_num [waitDelay]

/-! ## Identity lemmas for the normalizer on artifact-free text -/

theorem data_sClose : "</s>".data = ['<', '/', 's', '>'] := rfl

theorem data_sOpen : "<s>".data = ['<', 's', '>'] := rfl

theorem data_angle : "<|".data = ['<', '|'] := rfl

theorem findIdxL_eq_none (pat s : List Char) (h : containsL pat s = false) :
    findIdxL pat s = none := by
  induction s with
  | nil =>
    simp only [containsL] at h
    simp [findIdxL, h]
  | cons c cs ih =>
    simp only [containsL, Bool.or_eq_false_iff] at h
    simp [findIdxL, h.1, ih h.2]

theorem containsL_tail_false (pat : List Char) (c : Char) (cs : List Char)
    (h : containsL pat (c :: cs) = false) : containsL pat cs = false := by
  simp only [containsL, Bool.or_eq_false_iff] at h
  exact h.2

theorem isPrefixL_trans : ∀ p q r : List Char, isPrefixL p q = true →
    isPrefixL q r = true → isPrefixL p r = true
  | [], _, _, _, _ => rfl
  | _ :: _, [], _, h, _ => by simp [isPrefixL] at h
  | _ :: _, _ :: _, [], _, h2 => by simp [isPrefixL] at h2
  | p :: ps, q :: qs, r :: rs, h1, h2 => by
    simp only [isPrefixL, Bool.and_eq_true, beq_iff_eq] at h1 h2 ⊢
    exact ⟨h1.1.trans h2.1, isPrefixL_trans ps qs rs h1.2 h2.2⟩

theorem containsL_mono (p q s : List Char) (hpq : isPrefixL p q = true)
    (h : containsL q s = true) : containsL p s = true := by
  induction s with
  | nil =>
    simp only [containsL] at h ⊢
    exact isPrefixL_trans p q [] hpq h
  | cons c cs ih =>
    simp only [containsL, Bool.or_eq_true] at h ⊢
    rcases h with h | h
    · exact Or.inl (isPrefixL_trans _ _ _ hpq h)
    · exact Or.inr (ih h)

theorem containsL_mono_false (p q s : List Char) (hpq : isPrefixL p q = true)
    (h : containsL p s = false) : containsL q s = false := by
  cases hq : containsL q s
  · rfl
  · rw [containsL_mono p q s hpq hq] at h
    simp at h

theorem removeSpanDotall_id (op cl s : List Char) (h : containsL op s = false) :
    removeSpanDotall op cl s = s := by
  unfold removeSpanDotall
  rw [findIdxL_eq_none _ _ h]

theorem removeFirstCI_id (pat s : List Char)
    (h : containsL (toLowerL pat) (toLowerL s) = false) :
    removeFirstCI pat s = s := by
  unfold removeFirstCI
  rw [findIdxL_eq_none _ _ h]

theorem foldl_removeFirstCI_id (phs : List (List Char)) (s : List Char)
    (h : ∀ ph ∈ phs, removeFirstCI ph s = s) :
    phs.foldl (fun acc ph => removeFirstCI ph acc) s = s := by
  induction phs with
  | nil => rfl
  | cons p ps ih =>
    simp only [List.foldl_cons]
    rw [h p (List.mem_cons_self p ps)]
    exact ih (fun ph hph => h ph (List.mem_cons_of_mem _ hph))

theorem removeSTags_id : ∀ s : List Char, containsL "</s>".data s = false →
    containsL "<s>".data s = false → removeSTags s = s := by
  intro s
  induction s using removeSTags.induct with
  | case1 cs ih =>
    intro h1 _
    exfalso
    simp [containsL, isPrefixL, data_sClose] at h1
  | case2 cs ih =>
    intro _ h2
    exfalso
    simp [containsL, isPrefixL, data_sOpen] at h2
  | case3 c cs hn1 hn2 ih =>
    intro h1 h2
    have hred : removeSTags (c :: cs) = c :: removeSTags cs := by
      rw [removeSTags]
      · exact hn1
      · exact hn2
    rw [hred, ih (containsL_tail_false _ _ _ h1) (containsL_tail_false _ _ _ h2)]
  | case4 =>
    intro _ _
    rfl

theorem removeAngleSpans_id : ∀ s : List Char, containsL "<|".data s = false →
    removeAngleSpans s = s := by
  intro s
  induction s using removeAngleSpans.induct with
  | case1 cs j hfind ih =>
    intro h
    exfalso
    simp [containsL, isPrefixL, data_angle] at h
  | case2 cs hfind ih =>
    intro h
    exfalso
    simp [containsL, isPrefixL, data_angle] at h
  | case3 c cs hne ih =>
    intro h
    have hred : removeAngleSpans (c :: cs) = c :: removeAngleSpans cs := by
      rw [removeAngleSpans]
      exact hne
    rw [hred, ih (containsL_tail_false _ _ _ h)]
  | case4 =>
    intro _
    rw [removeAngleSpans]

theorem splitLines_cons_ne (c : Char) (cs : List Char) (h : ¬ c = '\n') :
    splitLines (c :: cs) =
      match splitLines cs with
      | [] => [[c]]
      | l :: ls => (c :: l) :: ls := by
  rw [splitLines]
  exact h

theorem splitLines_ne_nil : ∀ s : List Char, splitLines s ≠ [] := by
  intro s
  induction s using splitLines.induct with
  | case1 => simp [splitLines]
  | case2 cs ih =>
    show ([] :: splitLines cs) ≠ []
    simp
  | case3 c cs hne hnil ih =>
    rw [splitLines_cons_ne c cs hne, hnil]
    simp
  | case4 c cs hne l ls hcs ih =>
    rw [splitLines_cons_ne c cs hne, hcs]
    simp

theorem joinLines_splitLines : ∀ s : List Char, joinLines (splitLines s) = s := by
  intro s
  induction s using splitLines.induct with
  | case1 => rfl
  | case2 cs ih =>
    show joinLines ([] :: splitLines cs) = '\n' :: cs
    match hcs : splitLines cs with
    | [] => exact absurd hcs (splitLines_ne_nil cs)
    | l :: ls =>
      rw [hcs] at ih
      show ([] : List Char) ++ '\n' :: joinLines (l :: ls) = '\n' :: cs
      rw [List.nil_append, ih]
  | case3 c cs hne hnil ih =>
    exact absurd hnil (splitLines_ne_nil cs)
  | case4 c cs hne l ls hcs ih =>
    rw [splitLines_cons_ne c cs hne, hcs]
    rw [hcs] at ih
    cases ls with
    | nil => exact congrArg (fun t => c :: t) ih
    | cons l2 ls2 => exact congrArg (fun t => c :: t) ih

theorem blankLinesStarting_id (pfx s : List Char)
    (h : ∀ l ∈ splitLines s, isPrefixL pfx l = false) :
    blankLinesStarting pfx s = s := by
  unfold blankLinesStarting
  have hmap : ∀ l ∈ splitLines s,
      (if isPrefixL pfx l then ([] : List Char) else l) = id l := by
    intro l hl
    simp [h l hl]
  rw [List.map_congr_left hmap, List.map_id, joinLines_splitLines]

theorem isPrefixL_head_line : ∀ s : List Char, ∀ pat : List Char,
    ('\n' ∈ pat → False) → isPrefixL pat s = true →
    ∃ l ls, splitLines s = l :: ls ∧ isPrefixL pat l = true := by
  intro s
  induction s using splitLines.induct with
  | case1 =>
    intro pat hnl hp
    cases pat with
    | nil => exact ⟨[], [], rfl, rfl⟩
    | cons p ps => simp [isPrefixL] at hp
  | case2 cs ih =>
    intro pat hnl hp
    cases pat with
    | nil => exact ⟨[], splitLines cs, rfl, rfl⟩
    | cons p ps =>
      simp only [isPrefixL, Bool.and_eq_true, beq_iff_eq] at hp
      exact absurd (hp.1 ▸ List.mem_cons_self p ps) (fun hm => hnl hm)
  | case3 c cs hne hnil ih =>
    intro pat hnl hp
    exact absurd hnil (splitLines_ne_nil cs)
  | case4 c cs hne l ls hcs ih =>
    intro pat hnl hp
    rw [splitLines_cons_ne c cs hne, hcs]
    cases pat with
    | nil => exact ⟨c :: l, ls, rfl, rfl⟩
    | cons p ps =>
      simp only [isPrefixL, Bool.and_eq_true, beq_iff_eq] at hp
      obtain ⟨la, lsa, hsplita, hpa⟩ :=
        ih ps (fun hm => hnl (List.mem_cons_of_mem _ hm)) hp.2
      rw [hcs] at hsplita
      injection hsplita with h1 h2
      rw [← h1] at hpa
      refine ⟨c :: l, ls, rfl, ?_⟩
      simp only [isPrefixL, Bool.and_eq_true, beq_iff_eq]
      exact ⟨hp.1, hpa⟩

theorem not_isPrefix_of_lines (pat s : List Char) (hnl : '\n' ∈ pat → False)
    (h : ∀ l ∈ splitLines s, isPrefixL pat l = false) :
    isPrefixL pat s = false := by
  cases hp : isPrefixL pat s
  · rfl
  · obtain ⟨l, ls, hsl, hpl⟩ := isPrefixL_head_line s pat hnl hp
    have hfalse := h l (by rw [hsl]; exact List.mem_cons_self _ _)
    rw [hpl] at hfalse
    simp at hfalse

/-- Text free of every template artifact the normalizer looks for: no
`<s>`/`</s>`/`[INST]` markers, no `<|` role delimiters, no line starting with
`Human:` or `Q:`, no leading `Assistant:`/`Dermi:`/`A:` role label (case
insensitive), no denylisted system-instruction phrase (case insensitive),
already trimmed, and of at least the minimum viable length. -/
def artifactFree (x : List Char) : Prop :=
  containsL "</s>".data x = false ∧
  containsL "<s>".data x = false ∧
  containsL "[INST]".data x = false ∧
  containsL "<|".data x = false ∧
  (∀ l ∈ splitLines x, isPrefixL "Human:".data l = false) ∧
  (∀ l ∈ splitLines x, isPrefixL "Q:".data l = false) ∧
  isPrefixCI "Assistant:".data x = false ∧
  isPrefixCI "Dermi:".data x = false ∧
  isPrefixCI "A:".data x = false ∧
  (∀ ph ∈ systemInstructionPhrases, containsL (toLowerL ph) (toLowerL x) = false) ∧
  trimL x = x ∧
  10 ≤ x.length

instance (x : List Char) : Decidable (artifactFree x) := by
  unfold artifactFree
  infer_instance

/-- On artifact-free text the whole normalization pipeline is the
identity, for every backend identifier. -/
theorem extract_clean_id (m x : String) (hx : artifactFree x.data) :
    extractModelResponse x m = x := by
  obtain ⟨c1, c2, c3, c4, c5, c6, c7, c8, c9, c10, c11, c12⟩ := hx
  have hS : removeSTags x.data = x.data := removeSTags_id x.data c1 c2
  have hI : removeSpanDotall "[INST]".data "[/INST]".data x.data = x.data :=
    removeSpanDotall_id _ _ _ c3
  have hUdata : containsL "<|USER|>".data x.data = false :=
    containsL_mono_false "<|".data "<|USER|>".data x.data (by decide) c4
  have hU : removeSpanDotall "<|USER|>".data "<|ASSISTANT|>".data x.data = x.data :=
    removeSpanDotall_id _ _ _ hUdata
  have hA : removeAngleSpans x.data = x.data := removeAngleSpans_id x.data c4
  have hHp : isPrefixL "Human:".data x.data = false :=
    not_isPrefix_of_lines _ _ (by decide) c5
  have hH : removeHumanDermiHeader x.data = x.data := by
    unfold removeHumanDermiHeader
    simp [hHp]
  have hBH : blankLinesStarting "Human:".data x.data = x.data :=
    blankLinesStarting_id _ _ c5
  have hRole : stripRoleLabel x.data = x.data := by
    unfold stripRoleLabel
    simp [c7, c8, c9]
  have hQ : blankLinesStarting "Q:".data x.data = x.data :=
    blankLinesStarting_id _ _ c6
  have hPh : systemInstructionPhrases.foldl
      (fun acc ph => removeFirstCI ph acc) x.data = x.data :=
    foldl_removeFirstCI_id _ _ (fun ph hph => removeFirstCI_id _ _ (c10 ph hph))
  have hxlen : x.length = x.data.length := rfl
  have hlen : ¬ x.length < 1 := by omega
  have hlen10 : ¬ (x.data).length < 10 := by omega
  unfold extractModelResponse
  rw [if_neg hlen]
  simp only [hS, hI, hU, hA, hH, hBH, ite_self, hRole, hQ, hPh, c11,
    if_neg hlen10]

/-- C9: the response normalizer is idempotent on text free of template
artifacts: `extract (extract x) = extract x` with the same backend identifier
both times. -/
theorem extract_idempotent_on_clean (modelName x : String)
    (hx : artifactFree x.data) :
    extractModelResponse (extractModelResponse x modelName) modelName =
      extractModelResponse x modelName := by
  have e := extract_clean_id modelName x hx
  rw [e]
  exact e

/-- Witness for C9 on a concrete clean sentence and backend. -/
theorem extract_idempotent_on_clean_witness :
    extractModelResponse (extractModelResponse
        "Sunscreen protects your skin from sun damage." "microsoft/phi-2")
      "microsoft/phi-2" =
    extractModelResponse "Sunscreen protects your skin from sun damage."
      "microsoft/phi-2" :=
  extract_idempotent_on_clean "microsoft/phi-2"
    "Sunscreen protects your skin from sun damage." (by decide)

end DermiProxy
